import Mathlib

/-!
Verification of `lib/run_repo_tests.py`: a shallow embedding of the
package-review pipeline (archive extraction, structural validation,
manifest diff reconciliation, review publication) together with proofs
about the embedded definitions.

Python strings are modelled as `List Char` (written `Str`); Python
filesystem paths are such strings.  Fallible steps return `Except` or
`Option`; filesystem writes are reified as a list of `FsOp` events.
-/

namespace RepoTests

/-- Python `str` is modelled as a list of characters. -/
abbrev Str := List Char

instance {ε α : Type} [DecidableEq ε] [DecidableEq α] : DecidableEq (Except ε α) :=
  fun a b =>
    match a, b with
    | .ok x, .ok y =>
      if h : x = y then isTrue (by rw [h]) else isFalse (by simp [h])
    | .error x, .error y =>
      if h : x = y then isTrue (by rw [h]) else isFalse (by simp [h])
    | .ok _, .error _ => isFalse (by simp)
    | .error _, .ok _ => isFalse (by simp)

/-- Python `path.replace('\\', '/')` (every backslash becomes a slash). -/
def pySlashes (s : Str) : Str :=
  s.map (fun c => if c = '\\' then '/' else c)

/-- Python substring test `pat in s` (left-to-right scan for `pat`). -/
def hasSub (pat : Str) : Str → Bool
  | [] => pat.isEmpty
  | c :: rest => pat.isPrefixOf (c :: rest) || hasSub pat rest

/-- Python `s.endswith('/')`. -/
def endsWithSlash (s : Str) : Bool :=
  s.getLast? == some '/'

/-- Index of the first `'/'` in a path, `none` when absent
(Python `s.find('/')` returning `-1` is modelled by `none`). -/
def firstSlashIdx (s : Str) : Option Nat :=
  s.findIdx? (fun c => c = '/')

/-- Left-to-right scan of Python `str.replace(pat, '')` for a nonempty
pattern, with explicit fuel (one unit per character examined; a match
additionally consumes the matched characters, so `l.length` fuel always
suffices). -/
def removeAllFuel (pat : Str) : Nat → Str → Str
  | _, [] => []
  | 0, l => l
  | fuel + 1, c :: rest =>
    if pat.isPrefixOf (c :: rest) ∧ pat ≠ [] then
      removeAllFuel pat fuel (List.drop pat.length (c :: rest))
    else
      c :: removeAllFuel pat fuel rest

/-- Python `str.replace(pat, '')` for a nonempty pattern: remove
left-to-right non-overlapping occurrences of `pat`.  (For an empty
pattern the function keeps the string; the source only uses a fixed
nonempty pattern.) -/
def removeAll (pat l : Str) : Str :=
  removeAllFuel pat l.length l

/-- POSIX `os.path.join(a, b)`: an absolute second component replaces the
first; otherwise the parts are joined with a single `'/'` separator. -/
def posixJoin (a b : Str) : Str :=
  if (['/'] : Str).isPrefixOf b then b
  else if a = [] ∨ endsWithSlash a then a ++ b
  else a ++ '/' :: b

/-- Python `p.split('/')`. -/
def splitSlash : Str → List Str
  | [] => [[]]
  | c :: rest =>
    let r := splitSlash rest
    if c = '/' then [] :: r
    else
      match r with
      | h :: t => (c :: h) :: t
      | [] => [[c]]

/-- The component loop of `posixpath.normpath`: drop empty and `'.'`
components, resolve `'..'` by popping the previous component (kept
literally at the start of a relative path, dropped at the root of an
absolute one).  The accumulator holds components in reverse. -/
def normSegs (ab : Bool) : List Str → List Str → List Str
  | [], acc => acc.reverse
  | c :: rest, acc =>
    if c = [] ∨ c = ['.'] then normSegs ab rest acc
    else if c ≠ ['.', '.'] ∨ (¬ ab ∧ acc = []) ∨ acc.head? = some ['.', '.'] then
      normSegs ab rest (c :: acc)
    else
      normSegs ab rest acc.tail

/-- `posixpath.normpath`: collapse separators and resolve `'.'` / `'..'`
components, preserving the leading-slash count convention (two slashes
stay two, any other number collapses to one). -/
def normpath (p : Str) : Str :=
  if p = [] then ['.']
  else
    let sl : Nat :=
      if (['/', '/'] : Str).isPrefixOf p ∧ ¬ (['/', '/', '/'] : Str).isPrefixOf p then 2
      else if (['/'] : Str).isPrefixOf p then 1
      else 0
    let comps := normSegs (decide (0 < sl)) (splitSlash p) []
    let out := List.replicate sl '/' ++ List.intercalate ['/'] comps
    if out = [] then ['.'] else out

/-- `os.path.abspath` as used on the (always absolute) destination paths
of the extractor: for an absolute input `abspath` is `normpath`. -/
def abspath (p : Str) : Str := normpath p

/-- POSIX `os.path.dirname`. -/
def dirname (p : Str) : Str :=
  match (p.reverse.findIdx? (fun c => c = '/')) with
  | none => []
  | some j =>
    let i := p.length - 1 - j
    let head := p.take (i + 1)
    if head.all (fun c => c = '/') then head
    else (head.reverse.dropWhile (fun c => c = '/')).reverse

/-- POSIX `os.path.basename` (the part after the last `'/'`). -/
def basenameStr (p : Str) : Str :=
  (splitSlash p).getLastD []

/-! ## `build_result` and findings

A finding is modelled by its message string (`format_report` wraps a
string message together with an always-initially-empty detail list, so
the message carries all the information the claims speak about). -/

/-- The result dictionary built by `build_result(errors, warnings)`:
verdict `"errors"` when the error list is nonempty, else `"warnings"`
when the warning list is nonempty, else `"success"`. -/
structure RResult where
  result : Str
  errors : List Str
  warnings : List Str
deriving DecidableEq, Repr

/-- `build_result` from `run_repo_tests.py` (lines 27-34). -/
def build_result (errors warnings : List Str) : RResult :=
  { result :=
      if ¬ errors.isEmpty then "errors".data
      else if ¬ warnings.isEmpty then "warnings".data
      else "success".data
    errors := errors
    warnings := warnings }

/-! ## Secure extraction (`run_tests` lines 114-169) -/

/-- A filesystem effect performed by the extraction loop:
`ensureDir p` models `os.makedirs(p)` guarded by `os.path.exists`,
`writeFile p` models opening `p` for writing and copying the entry. -/
inductive FsOp where
  | ensureDir (p : Str)
  | writeFile (p : Str)
deriving DecidableEq, Repr

/-- The security-rejection message
`'The path "%s" appears to be attempting to access other parts of the filesystem' % path`. -/
def travMsg (p : Str) : Str :=
  "The path \"".data ++ p ++ "\" appears to be attempting to access other parts of the filesystem".data

/-- A (backslash-normalised) entry is root-level when its first `'/'`
is absent or is its final character
(Python `path.find('/') in [len(path) - 1, -1]`). -/
def isRootLevel (q : Str) : Bool :=
  match firstSlashIdx q with
  | none => true
  | some i => i + 1 = q.length

/-- The rejection test of the first pass
(`path[0] == '/' or '../' in path`, on the backslash-normalised path).
Defined for nonempty paths; on `[]` it returns `false` where Python's
`path[0]` would raise `IndexError` (theorems about archives therefore
assume nonempty entry names). -/
def isBadPath (q : Str) : Bool :=
  (['/'] : Str).isPrefixOf q || hasSub "../".data q

/-- First pass over `namelist()` (lines 117-131): normalise backslashes,
remember the last path, collect root-level paths in order, and abort
with the traversal finding on the first suspicious path. -/
def scanPass : List Str → List Str → Option Str → Except Str (List Str × Option Str)
  | [], acc, last => .ok (acc, last)
  | p :: rest, acc, _ =>
    let q := pySlashes p
    let acc' := if isRootLevel q then acc ++ [q] else acc
    if isBadPath q then .error (travMsg q)
    else scanPass rest acc' (some q)

/-- `last_path[0:last_path.find('/') + 1]`: the leading segment of a
path up to and including its first slash (empty when it has none). -/
def takeFirstSeg (lp : Str) : Str :=
  match firstSlashIdx lp with
  | none => []
  | some i => lp.take (i + 1)

/-- Root-level scan of the archive (lines 117-140): the collected
root-level list — replaced, when it is empty and the last entry is a
nonempty string, by the synthesized first segment of that last entry —
together with the `skip_root_dir` flag (`len(root_level_paths) == 1 and
root_level_paths[0].endswith('/')`). -/
def rootScan (names : List Str) : Except Str (List Str × Bool) :=
  match scanPass names [] none with
  | .error e => .error e
  | .ok (acc, last) =>
    let rlp :=
      match last with
      | some lp => if acc = [] ∧ lp ≠ [] then [takeFirstSeg lp] else acc
      | none => acc
    .ok (rlp, rlp.length == 1 && endsWithSlash (rlp.headD []))

/-- Second pass over `namelist()` (lines 142-169): compute each entry's
destination (normalise backslashes, optionally strip the single root
directory, join onto the destination root, make absolute), abort on the
first destination that fails `dest.startswith(tmp_package_dir)`, and
otherwise record the directory creations and file writes performed. -/
def extractLoop (root seg : Str) (skip : Bool) : List Str → List FsOp → List FsOp × Option Str
  | [], ops => (ops, none)
  | p :: rest, ops =>
    let d0 := pySlashes p
    let d1 := if skip then d0.drop seg.length else d0
    let d2 := posixJoin root d1
    let d3 := abspath d2
    if ¬ root.isPrefixOf d3 then (ops, some (travMsg p))
    else
      let newOps :=
        if endsWithSlash p then ops ++ [FsOp.ensureDir d3]
        else ops ++ [FsOp.ensureDir (dirname d3), FsOp.writeFile d3]
      extractLoop root seg skip rest newOps

/-- The whole extraction of one archive into the destination root
`tmp_package_dir` (lines 114-169): the first pass aborting with no
filesystem effect, then the second pass recording its effects up to the
first rejection.  Returns the effects performed and the rejection
finding, if any. -/
def extractArchive (root : Str) (names : List Str) : List FsOp × Option Str :=
  match rootScan names with
  | .error e => ([], some e)
  | .ok (rlp, skip) => extractLoop root (rlp.headD []) skip names []

/-- Containment in the destination directory as the spec means it: the
path is the root itself or lives strictly below it. -/
def insideDir (root p : Str) : Prop :=
  p = root ∨ (root ++ ['/']).isPrefixOf p = true

instance (root p : Str) : Decidable (insideDir root p) := by
  unfold insideDir
  infer_instance

/-! ## Structural validation (`run_tests` lines 47-98)

The phase of `run_tests` that runs before the download/extraction.
The resolved package record (`info`) and the original manifest entry
(`spec`) are modelled with just the fields this phase reads. -/

/-- A release URL value: either not a `str` at all or a string
(`isinstance(url, str)` distinguishes the two). -/
inductive UrlVal where
  | notStr
  | strV (s : Str)
deriving DecidableEq, Repr

/-- A resolved release (`info['releases']` element); only `url` is read
before extraction. -/
structure RelInfo where
  url : UrlVal
deriving DecidableEq, Repr

/-- A declared release source (`spec['releases']` element): whether it
has a `branch` key, and its `platforms` value (`.get('platforms', [])`). -/
structure RelSrc where
  hasBranch : Bool
  platforms : List Str
deriving DecidableEq, Repr

/-- The original manifest entry, with the fields `run_tests` reads. -/
structure SpecM where
  releases : List RelSrc
deriving DecidableEq, Repr

/-- The resolved package record: `name` (`none` when not a `str`),
resolved releases, and the `readme` value (`none` models `None`). -/
structure PkgInfoM where
  name : Option Str
  releases : List RelInfo
  readme : Option Str
deriving DecidableEq, Repr

/-- `set(platforms) == {'windows', 'osx', 'linux'} or platforms == ['*']`. -/
def platformsUniversal (ps : List Str) : Bool :=
  (ps.all (fun p => p = "windows".data ∨ p = "osx".data ∨ p = "linux".data) &&
    ["windows".data, "osx".data, "linux".data].all (fun p => ps.contains p)) || ps == ["*".data]

/-- The per-release-source loop (lines 81-86): branch errors and
platform warnings, in release order. -/
def releaseChecks : List RelSrc → List Str × List Str
  | [] => ([], [])
  | r :: rest =>
    let es := releaseChecks rest
    ((if r.hasBranch then ["Branch-based releases are not supported for new packages; please use \"tags\": true".data] else []) ++ es.1,
     (if platformsUniversal r.platforms then ["The \"platforms\" key may be omitted instead of specifying all platform".data] else []) ++ es.2)

/-- Outcome of the pre-extraction phase: either `run_tests` returned
before downloading anything (`early`), or it reached the download and
extraction steps carrying the findings accumulated so far and the
primary release URL (`toFetch`). -/
inductive PreOut where
  | early (r : RResult)
  | toFetch (errors warnings : List Str) (u : Str)
deriving DecidableEq, Repr

/-- `run_tests` up to the `https://` check on the primary release URL
(lines 58-98), given the successfully resolved record `info`:
name validation, the `"sublime"`-in-name error, the release/branch/
platform rules, the readme warning, the empty-release early return and
the primary-URL scheme check. -/
def runTestsPre (spec : SpecM) (info : PkgInfoM) : PreOut :=
  match info.name with
  | none => .early (build_result ["Invalid package name".data] [])
  | some n =>
    if n.contains '/' || n.contains '\\' then
      .early (build_result ["Invalid package name".data] [])
    else
      let e1 : List Str :=
        if hasSub "sublime".data (n.map Char.toLower) then
          ["Package name contains the word \"sublime\"".data]
        else []
      let ew : List Str × List Str :=
        if info.releases.isEmpty then
          (if ¬ spec.releases.isEmpty then
            ["No releases found; check to ensure you have created a valid semver tag".data]
          else
            ["No releases specified".data], [])
        else releaseChecks spec.releases
      let w3 : List Str :=
        if info.readme.isNone then
          ["Creating a readme for your package will help users understand what it does and how to use it".data]
        else []
      let errors := e1 ++ ew.1
      let warnings := ew.2 ++ w3
      match info.releases with
      | [] => .early (build_result errors warnings)
      | r0 :: _ =>
        match r0.url with
        | .notStr => .early (build_result ["Primary release URL does not begin with https://".data] [])
        | .strV u =>
          if ¬ ("https://".data).isPrefixOf u then
            .early (build_result ["Primary release URL does not begin with https://".data] [])
          else .toFetch errors warnings u

/-! ## Metadata resolution (`fetch_package_metadata`, lines 194-234) -/

/-- The synthetic placeholder phrase stripped from provider failure
messages: `' in the repository https://example.com'`. -/
def placeholderPhrase : Str :=
  " in the repository https://example.com".data

/-- The placeholder repository URL itself. -/
def placeholderUrl : Str :=
  "https://example.com".data

/-- `clean_message` (lines 209-211):
`error.replace(' in the repository https://example.com', '')`. -/
def clean_message (e : Str) : Str :=
  removeAll placeholderPhrase e

/-- The provider state `fetch_package_metadata` consults: the packages
`get_packages()` yields, and the `failed_sources` / `broken_packages`
mappings (modelled as association lists whose head is the popped item). -/
structure ProviderState where
  packages : List (Str × PkgInfoM)
  failedSources : List (Str × Str)
  brokenPackages : List (Str × Str)
deriving Repr

/-- `fetch_package_metadata` (lines 218-234): the first yielded package
wins; otherwise a failure message is cleaned and returned; when nothing
matches the function falls off its end, which Python turns into `None`
— modelled by `none`. -/
def fetch_package_metadata (st : ProviderState) : Option (Bool × (PkgInfoM ⊕ Str)) :=
  match st.packages with
  | (_, info) :: _ => some (true, Sum.inl info)
  | [] =>
    match st.failedSources with
    | (_, e) :: _ => some (false, Sum.inr (clean_message e))
    | [] =>
      match st.brokenPackages with
      | (_, e) :: _ => some (false, Sum.inr (clean_message e))
      | [] => none

/-- The tuple unpacking `res, info = fetch_package_metadata(spec)` at
the top of `run_tests` (line 58): unpacking `None` raises a
`TypeError`, modelled as the `Except.error` case. -/
def runTestsUnpack (fetched : Option (Bool × (PkgInfoM ⊕ Str))) :
    Except Str (Bool × (PkgInfoM ⊕ Str)) :=
  match fetched with
  | none => .error "TypeError: cannot unpack non-iterable NoneType object".data
  | some p => .ok p

/-! ## Changed-file filtering (`test_pull_request` lines 310-330) -/

/-- A word character of the regex `\w` (ASCII reading). -/
def isWordChar (c : Char) : Bool :=
  c.isAlpha || c.isDigit || c = '_'

/-- The anchored regex `repository/(\w|0-9)\.json$` of line 321: the
literal text `repository/`, then either a single word character or the
literal three characters `0-9`, then the literal `.json` at the end. -/
def shardNameMatch (s : Str) : Bool :=
  ("repository/".data).isPrefixOf s &&
    (let rest := s.drop ("repository/".data).length
     (".json".data).isSuffixOf rest &&
       (let mid := rest.take (rest.length - (".json".data).length)
        (match mid with
         | [c] => isWordChar c
         | _ => false) || mid == "0-9".data))

/-- One changed line of `git diff --name-status`, already split into
its status letter and filename. -/
abbrev ChangedFile := Str × Str

/-- The changed-file loop (lines 310-330): keep `.json` files whose name
matches the shard regex or is exactly `repository.json` / `channel.json`,
skip every other file silently, and abort when a kept file's status is
not `M`. -/
def filterChangedFiles : List ChangedFile → Except Str (List Str)
  | [] => .ok []
  | (status, filename) :: rest =>
    if ¬ (".json".data).isSuffixOf filename then filterChangedFiles rest
    else if ¬ shardNameMatch filename ∧ filename ≠ "repository.json".data ∧
        filename ≠ "channel.json".data then
      filterChangedFiles rest
    else if status ≠ "M".data then
      .error "Unsure how to test a change that adds or removes a file, aborting".data
    else
      match filterChangedFiles rest with
      | .error e => .error e
      | .ok fs => .ok (filename :: fs)

/-! ## Package-diff reconciliation (`test_pull_request` lines 352-370) -/

/-- One entry of a repository file's `packages` list as the diff sees
it: its canonical serialization (`json.dumps(p)`), its `name` key when
present, and its `details` key when present. -/
structure PkgEntry where
  ser : Str
  nameKey : Option Str
  details : Option Str
deriving DecidableEq, Repr, Inhabited

/-- `package_name` (lines 250-254): the `name` key when present, else
the basename of the `details` URL.  (A missing `details` key would raise
`KeyError` in Python; the model reads it as the empty string.) -/
def package_name (p : PkgEntry) : Str :=
  match p.nameKey with
  | some n => n
  | none => basenameStr (p.details.getD [])

/-- The serialized forms of a package list. -/
def serList (l : List PkgEntry) : List Str :=
  l.map (fun p => p.ser)

/-- `new_json['packages'][new_packages.index(s)]`: the entry at the
first index of serialization `s`. -/
def entryFor (l : List PkgEntry) (s : Str) : PkgEntry :=
  l.getD ((serList l).indexOf s) default

/-- `set(old_packages) - set(new_packages)`. -/
def deletedSer (oldPkgs newPkgs : List PkgEntry) : Finset Str :=
  (serList oldPkgs).toFinset \ (serList newPkgs).toFinset

/-- `set(new_packages) - set(old_packages)`. -/
def addedSer (oldPkgs newPkgs : List PkgEntry) : Finset Str :=
  (serList newPkgs).toFinset \ (serList oldPkgs).toFinset

/-- The classification a single repository file's diff produces:
modified/added/removed package names, the recorded specs of added
packages (`added_pkg_data`) and their details links (`pkg_links`). -/
structure DiffOut where
  modified : Finset Str
  added : Finset Str
  removed : Finset Str
  addedData : Finset (Str × PkgEntry)
  links : Finset (Str × Str)
deriving DecidableEq

/-- The reconciliation of lines 352-370: with `D` removed and `A` added
serialized entries, `D == A` classifies every added entry as a
modification, `D == 0` as an addition (recording its spec and details
link), and otherwise the removed entries are classified as removals
while the added entries are dropped. -/
def diffPkgLists (oldPkgs newPkgs : List PkgEntry) : DiffOut :=
  let deleted := deletedSer oldPkgs newPkgs
  let added := addedSer oldPkgs newPkgs
  if deleted.card = added.card then
    { modified := (added.image (entryFor newPkgs)).image package_name
      added := ∅, removed := ∅, addedData := ∅, links := ∅ }
  else if deleted.card = 0 then
    let es := added.image (entryFor newPkgs)
    { modified := ∅
      added := es.image package_name
      removed := ∅
      addedData := es.image (fun p => (package_name p, p))
      links := (es.filter (fun p => p.details.isSome = true)).image
        (fun p => (package_name p, p.details.getD [])) }
  else
    { modified := ∅, added := ∅
      removed := ((deletedSer oldPkgs newPkgs).image (entryFor oldPkgs)).image package_name
      addedData := ∅, links := ∅ }

/-! ## Review composition and publication
(`test_pull_request` lines 488-525) -/

/-- Lines 488-497: the `(event, review_status)` pair derived from the
accumulated error and warning flags. -/
def reviewEventStatus (errors warnings : Bool) : Str × Str :=
  if errors then ("REQUEST_CHANGES".data, "ERROR".data)
  else if warnings then ("COMMENT".data, "WARNING".data)
  else ("APPROVE".data, "SUCCESS".data)

/-- The review payload posted to `%s/reviews` (line 525):
`{'body': ..., 'event': 'REQUEST_CHANGES'}` — the event field is the
string literal, not the derived `event` variable. -/
structure ReviewPost where
  body : Str
  event : Str
deriving DecidableEq, Repr

/-- Line 525's payload construction. -/
def postReviewPayload (body : Str) : ReviewPost :=
  { body := body, event := "REQUEST_CHANGES".data }

/-! ## Spec-side reformulations

Definitions that restate, in the spec's vocabulary, what the code
computes; the theorems compare them with the code-side definitions
above. -/

/-- The root-level occurrences the first pass collects, described
directly: one occurrence per entry classified root-level, in order and
with multiplicity. -/
def rootLevelOccurrences (names : List Str) : List Str :=
  (names.map pySlashes).filter isRootLevel

/-- The root-level list after the synthesized-prefix fallback of lines
133-134: when no entry was classified root-level and the (normalised)
last entry is a nonempty string, the list becomes the single
synthesized first segment of that last entry. -/
def rootLevelWithFallback (names : List Str) : List Str :=
  match (names.map pySlashes).getLast? with
  | some lp =>
    if rootLevelOccurrences names = [] ∧ lp ≠ [] then [takeFirstSeg lp]
    else rootLevelOccurrences names
  | none => rootLevelOccurrences names

/-- Serializations are injective on a package list (true of the Python
lists, where the serialization `json.dumps(p)` determines the entry). -/
def serInj (l : List PkgEntry) : Prop :=
  ∀ p ∈ l, ∀ q ∈ l, p.ser = q.ser → p = q

instance (l : List PkgEntry) : Decidable (serInj l) := by
  unfold serInj
  infer_instance

/-- The new-list entries whose serialization does not occur in the old
list — the spec's "added entries". -/
def freshEntries (oldPkgs newPkgs : List PkgEntry) : List PkgEntry :=
  newPkgs.filter (fun p => decide (p.ser ∉ serList oldPkgs))

/-- The old-list entries whose serialization does not occur in the new
list — the spec's "removed entries". -/
def goneEntries (oldPkgs newPkgs : List PkgEntry) : List PkgEntry :=
  oldPkgs.filter (fun p => decide (p.ser ∉ serList newPkgs))

/-- The names of the spec's added entries. -/
def freshNames (oldPkgs newPkgs : List PkgEntry) : Finset Str :=
  ((freshEntries oldPkgs newPkgs).map package_name).toFinset

/-- The names of the spec's removed entries. -/
def goneNames (oldPkgs newPkgs : List PkgEntry) : Finset Str :=
  ((goneEntries oldPkgs newPkgs).map package_name).toFinset

/-- The recorded name-to-spec pairs for the spec's added entries. -/
def freshData (oldPkgs newPkgs : List PkgEntry) : Finset (Str × PkgEntry) :=
  ((freshEntries oldPkgs newPkgs).map (fun p => (package_name p, p))).toFinset

/-- The recorded details links for the spec's added entries. -/
def freshLinks (oldPkgs newPkgs : List PkgEntry) : Finset (Str × Str) :=
  (((freshEntries oldPkgs newPkgs).filter (fun p => p.details.isSome)).map
    (fun p => (package_name p, p.details.getD []))).toFinset

/-! ## Concrete inputs used by examples, witnesses and counterexamples -/

/-- Example package entry `A`. -/
def pA : PkgEntry := { ser := "serA".data, nameKey := some "A".data, details := none }

/-- Example package entry `B`. -/
def pB : PkgEntry := { ser := "serB".data, nameKey := some "B".data, details := none }

/-- Example package entry `C`. -/
def pC : PkgEntry := { ser := "serC".data, nameKey := some "C".data, details := none }

/-- Example package entry `D`, carrying a details link. -/
def pD : PkgEntry :=
  { ser := "serD".data, nameKey := some "D".data, details := some "https://x/D".data }

/-- Example package entry `A'` (entry `A` after an edit). -/
def pA1 : PkgEntry := { ser := "serA2".data, nameKey := some "A2".data, details := none }

/-- A spec declaring no releases. -/
def specNoReleases : SpecM := { releases := [] }

/-- A resolved record whose name contains `"sublime"`, with no releases
and no readme. -/
def infoSublimeNoReleases : PkgInfoM :=
  { name := some "MySublimePkg".data, releases := [], readme := none }

/-- A well-behaved resolved record with no releases. -/
def infoPlainNoReleases : PkgInfoM :=
  { name := some "MyPkg".data, releases := [], readme := some "readme".data }

/-- A resolved record whose name contains a slash and whose primary
release URL is not a string. -/
def infoSlashNameBadUrl : PkgInfoM :=
  { name := some "a/b".data, releases := [{ url := UrlVal.notStr }], readme := some "r".data }

/-- A spec with a branch-based release source listing every platform. -/
def specBranchStar : SpecM :=
  { releases := [{ hasBranch := true, platforms := ["*".data] }] }

/-- A resolved record with a `"sublime"` name, no readme, and an
insecure primary release URL. -/
def infoSublimeBadUrl : PkgInfoM :=
  { name := some "MySublimeTool".data
    releases := [{ url := UrlVal.strV "http://x".data }]
    readme := none }

/-- A provider failure message mentioning the placeholder URL outside
the stripped phrase. -/
def leakMsg : Str := "Error downloading https://example.com.".data

/-! ## Helper lemmas -/

/-- A string with no occurrence of `pat` is unchanged by the
left-to-right removal scan, for any amount of fuel. -/
theorem removeAllFuel_id (pat : Str) :
    ∀ (fuel : Nat) (l : Str), hasSub pat l = false → removeAllFuel pat fuel l = l := by
  intro fuel
  induction fuel with
  | zero => intro l _; cases l <;> rfl
  | succ fuel ih =>
    intro l h
    cases l with
    | nil => rfl
    | cons c rest =>
      have h' : pat.isPrefixOf (c :: rest) = false ∧ hasSub pat rest = false := by
        simpa [hasSub] using h
      have hcond : ¬ (pat.isPrefixOf (c :: rest) = true ∧ pat ≠ []) := by
        intro hc
        rw [h'.1] at hc
        exact Bool.false_ne_true hc.1
      rw [removeAllFuel, if_neg hcond, ih rest h'.2]

/-- `clean_message` leaves a message without the placeholder phrase
unchanged. -/
theorem clean_message_id (s : Str) (h : hasSub placeholderPhrase s = false) :
    clean_message s = s :=
  removeAllFuel_id placeholderPhrase s.length s h

/-- On an archive with no suspicious entry the first pass succeeds,
collecting exactly the root-level occurrences (appended to the incoming
accumulator) and ending with the last normalised path. -/
theorem scanPass_ok :
    ∀ (names acc : List Str) (last : Option Str),
      (∀ p ∈ names, isBadPath (pySlashes p) = false) →
      scanPass names acc last =
        .ok (acc ++ rootLevelOccurrences names,
          match (names.map pySlashes).getLast? with
          | none => last
          | some q => some q) := by
  intro names
  induction names with
  | nil => intro acc last _; simp [scanPass, rootLevelOccurrences]
  | cons p rest ih =>
    intro acc last h
    have hbad : isBadPath (pySlashes p) = false := h p (List.mem_cons_self p rest)
    have hrest : ∀ q ∈ rest, isBadPath (pySlashes q) = false :=
      fun q hq => h q (List.mem_cons_of_mem p hq)
    rw [scanPass, if_neg (by simp [hbad]),
      ih (if isRootLevel (pySlashes p) then acc ++ [pySlashes p] else acc)
        (some (pySlashes p)) hrest]
    have hacc :
        (if isRootLevel (pySlashes p) then acc ++ [pySlashes p] else acc) ++
            rootLevelOccurrences rest =
          acc ++ rootLevelOccurrences (p :: rest) := by
      by_cases hrl : isRootLevel (pySlashes p) <;>
        simp [rootLevelOccurrences, List.filter_cons, hrl]
    rw [hacc]
    cases hm : rest.map pySlashes with
    | nil => simp [hm]
    | cons r t => simp [hm, List.getLast?_cons]

/-- Every file write the second pass performs passed the
`dest.startswith(tmp_package_dir)` guard; the only way a write can land
outside the destination directory is prefix aliasing — the root string
being a string prefix of a path that is not below the root. -/
theorem extractLoop_writes_guarded (root seg : Str) (skip : Bool) :
    ∀ (names : List Str) (ops : List FsOp),
      (∀ q : Str, FsOp.writeFile q ∈ ops → root.isPrefixOf q = true) →
      ∀ q : Str, FsOp.writeFile q ∈ (extractLoop root seg skip names ops).1 →
        root.isPrefixOf q = true := by
  intro names
  induction names with
  | nil =>
    intro ops hops q hq
    exact hops q hq
  | cons p rest ih =>
    intro ops hops q hq
    simp only [extractLoop] at hq
    set d3 := abspath (posixJoin root
      (if skip = true then (pySlashes p).drop seg.length else pySlashes p)) with hd3
    split at hq
    · exact hops q (by simpa using hq)
    · rename_i hguard
      have hg : root.isPrefixOf d3 = true := Decidable.not_not.1 hguard
      refine ih _ ?_ q hq
      intro r hr
      split at hr
      · rcases List.mem_append.1 hr with hr2 | hr2
        · exact hops r hr2
        · simp at hr2
      · rcases List.mem_append.1 hr with hr2 | hr2
        · exact hops r hr2
        · rcases List.mem_cons.1 hr2 with hr3 | hr3
          · exact absurd hr3 (by simp)
          · have hr4 := List.mem_singleton.1 hr3
            rw [FsOp.writeFile.injEq] at hr4
            rw [hr4]
            exact hg

/-- `Finset.image` over a list's `toFinset` is the `toFinset` of the
mapped list. -/
theorem image_toFinset_map {α β : Type} [DecidableEq α] [DecidableEq β]
    (l : List α) (f : α → β) :
    l.toFinset.image f = (l.map f).toFinset := by
  ext b
  simp

/-- The first index returned by `list.index` is in bounds (for the
`BEq` the model's definitions elaborate with). -/
theorem idxOf_lt_length {l : List Str} {s : Str} (h : s ∈ l) :
    l.indexOf s < l.length :=
  List.findIdx_lt_length_of_exists ⟨s, h, by simp⟩

/-- The element at the first index of `s` is `s` itself. -/
theorem get_idxOf {l : List Str} {s : Str} (h : l.indexOf s < l.length) :
    l.get ⟨l.indexOf s, h⟩ = s := by
  have hb : (l.get ⟨l.indexOf s, h⟩ == s) = true := by
    have hg := @List.findIdx_getElem _ (fun x => x == s) l h
    simpa [List.get_eq_getElem] using hg
  exact eq_of_beq hb

/-- The entry at the first index of a serialization occurring in the
list belongs to the list and has that serialization. -/
theorem entryFor_mem_ser (l : List PkgEntry) (s : Str) (h : s ∈ serList l) :
    entryFor l s ∈ l ∧ (entryFor l s).ser = s := by
  have hlt : (serList l).indexOf s < (serList l).length := idxOf_lt_length h
  have hlen : (serList l).length = l.length := by simp [serList]
  have hlt' : (serList l).indexOf s < l.length := hlen ▸ hlt
  have hentry : entryFor l s = l.get ⟨(serList l).indexOf s, hlt'⟩ := by
    unfold entryFor
    rw [List.getD_eq_getElem?_getD, List.getElem?_eq_getElem hlt']
    simp [List.get_eq_getElem]
  constructor
  · rw [hentry]
    exact List.get_mem _ _ _
  · rw [hentry]
    have hidx : (serList l).get ⟨(serList l).indexOf s, hlt⟩ = s :=
      get_idxOf hlt
    have hmap : (serList l).get ⟨(serList l).indexOf s, hlt⟩ =
        (l.get ⟨(serList l).indexOf s, hlt'⟩).ser := by
      simp [serList, List.get_eq_getElem, List.getElem_map]
    rw [← hmap]
    exact hidx

/-- On a serialization-injective list, taking the entry at the first
index of each added/removed serialization recovers exactly the entries
whose serialization is absent from the other list. -/
theorem image_entryFor_eq (l other : List PkgEntry) (hinj : serInj l) :
    ((serList l).toFinset \ (serList other).toFinset).image (entryFor l) =
      (l.filter (fun p => decide (p.ser ∉ serList other))).toFinset := by
  ext e
  simp only [Finset.mem_image, Finset.mem_sdiff, List.mem_toFinset,
    List.mem_filter, decide_eq_true_eq]
  constructor
  · rintro ⟨s, ⟨hs1, hs2⟩, rfl⟩
    obtain ⟨hm, hser⟩ := entryFor_mem_ser l s hs1
    exact ⟨hm, by rw [hser]; exact hs2⟩
  · rintro ⟨hm, hns⟩
    refine ⟨e.ser, ⟨List.mem_map_of_mem _ hm, hns⟩, ?_⟩
    obtain ⟨hm', hser'⟩ := entryFor_mem_ser l e.ser (List.mem_map_of_mem _ hm)
    exact hinj _ hm' _ hm hser'

/-! ## Claim theorems -/

/-- Claim C1 (code bug): evaluating the extraction at the failing input
— destination root `/t/Pkg`, archive entries `foo/` and `foo//t/Pkgx` —
shows that after the single top-level directory `foo/` is stripped, the
entry `foo//t/Pkgx` yields the absolute destination `/t/Pkgx`, which
passes the `dest.startswith(tmp_package_dir)` guard (a string-prefix
check, not a containment check) and is written although it lies outside
the destination directory, contradicting the claim that no file is ever
written outside `tmp_package_dir`. -/
theorem claim_C1_escape_eval :
    extractArchive "/t/Pkg".data ["foo/".data, "foo//t/Pkgx".data] =
      ([FsOp.ensureDir "/t/Pkg".data, FsOp.ensureDir "/t".data,
        FsOp.writeFile "/t/Pkgx".data], none) ∧
    ¬ insideDir "/t/Pkg".data "/t/Pkgx".data ∧
    ("/t/Pkg".data).isPrefixOf "/t/Pkgx".data = true := by
  exact ⟨by decide, by decide, by decide⟩

/-- Claim C2 (counterexample): the archive `["a/b.txt"]` has zero
root-level entries — so "exactly one distinct root-level entry is seen"
is false — yet lines 133-134 synthesize the prefix `a/` from the last
entry and the archive is treated as single-rooted: extraction strips
`a/` and writes `b.txt` directly under the destination root. -/
theorem claim_C2_cex :
    rootLevelOccurrences ["a/b.txt".data] = [] ∧
    rootScan ["a/b.txt".data] = .ok (["a/".data], true) ∧
    extractArchive "/tmp/p/MyPkg".data ["a/b.txt".data] =
      ([FsOp.ensureDir "/tmp/p/MyPkg".data,
        FsOp.writeFile "/tmp/p/MyPkg/b.txt".data], none) := by
  exact ⟨by decide, by decide, by decide⟩

/-- Claim C2 (amended): for archives with nonempty, non-suspicious entry
names, the root-level list the scan computes is exactly the root-level
occurrence list (one occurrence per entry whose first `/` is absent or
final, with multiplicity) — replaced, when it is empty and the archive
is nonempty, by the single synthesized first segment of the last entry —
and the archive is treated as single-rooted exactly when that list has
exactly one element and the element ends with `/`.  In particular an
archive with one top-level directory `foo/` containing `foo/a.txt`
extracts `a.txt` directly under the destination root, and an archive
with two top-level entries extracts both at top level unmodified. -/
theorem claim_C2_single_root :
    (∀ names : List Str,
      (∀ p ∈ names, p ≠ [] ∧ isBadPath (pySlashes p) = false) →
      rootScan names =
        .ok (rootLevelWithFallback names,
          (rootLevelWithFallback names).length == 1 &&
            endsWithSlash ((rootLevelWithFallback names).headD []))) ∧
    extractArchive "/tmp/p/MyPkg".data ["foo/".data, "foo/a.txt".data] =
      ([FsOp.ensureDir "/tmp/p/MyPkg".data, FsOp.ensureDir "/tmp/p/MyPkg".data,
        FsOp.writeFile "/tmp/p/MyPkg/a.txt".data], none) ∧
    extractArchive "/tmp/p/MyPkg".data ["a.txt".data, "b.txt".data] =
      ([FsOp.ensureDir "/tmp/p/MyPkg".data,
        FsOp.writeFile "/tmp/p/MyPkg/a.txt".data,
        FsOp.ensureDir "/tmp/p/MyPkg".data,
        FsOp.writeFile "/tmp/p/MyPkg/b.txt".data], none) := by
  refine ⟨?_, by decide, by decide⟩
  intro names h
  unfold rootScan
  rw [scanPass_ok names [] none (fun p hp => (h p hp).2)]
  simp only [List.nil_append]
  unfold rootLevelWithFallback
  cases hm : (names.map pySlashes).getLast? with
  | none => rfl
  | some lp => rfl

/-- Witness for C2 at a concrete archive with two root-level files. -/
theorem claim_C2_single_root_w :
    rootScan ["x.txt".data, "y.txt".data] =
      .ok (rootLevelWithFallback ["x.txt".data, "y.txt".data],
        (rootLevelWithFallback ["x.txt".data, "y.txt".data]).length == 1 &&
          endsWithSlash
            ((rootLevelWithFallback ["x.txt".data, "y.txt".data]).headD [])) :=
  claim_C2_single_root.1 ["x.txt".data, "y.txt".data] (by decide)

/-- Claim C3: diff reconciliation — with `D` removed and `A` added
serialized entries, `D = A` classifies every added entry as a
modification; `D = 0` (with additions present) classifies every added
entry as an addition, recording its spec and optional details link;
any other combination classifies the removed entries as removals and
drops the added entries.  In particular `[A,B,C]` to `[A,B,C,D]` adds
`D`; `[A,B]` to `[A]` removes `B`; `[A]` to `[A']` modifies `name(A')`. -/
theorem claim_C3_diff :
    (∀ oldPkgs newPkgs : List PkgEntry, serInj oldPkgs → serInj newPkgs →
      ((deletedSer oldPkgs newPkgs).card = (addedSer oldPkgs newPkgs).card →
        diffPkgLists oldPkgs newPkgs =
          { modified := freshNames oldPkgs newPkgs, added := ∅, removed := ∅,
            addedData := ∅, links := ∅ }) ∧
      ((deletedSer oldPkgs newPkgs).card = 0 →
        (addedSer oldPkgs newPkgs).card ≠ 0 →
        diffPkgLists oldPkgs newPkgs =
          { modified := ∅, added := freshNames oldPkgs newPkgs, removed := ∅,
            addedData := freshData oldPkgs newPkgs,
            links := freshLinks oldPkgs newPkgs }) ∧
      ((deletedSer oldPkgs newPkgs).card ≠ (addedSer oldPkgs newPkgs).card →
        (deletedSer oldPkgs newPkgs).card ≠ 0 →
        diffPkgLists oldPkgs newPkgs =
          { modified := ∅, added := ∅, removed := goneNames oldPkgs newPkgs,
            addedData := ∅, links := ∅ })) ∧
    diffPkgLists [pA, pB, pC] [pA, pB, pC, pD] =
      { modified := ∅, added := {"D".data}, removed := ∅,
        addedData := {("D".data, pD)},
        links := {("D".data, "https://x/D".data)} } ∧
    diffPkgLists [pA, pB] [pA] =
      { modified := ∅, added := ∅, removed := {"B".data},
        addedData := ∅, links := ∅ } ∧
    diffPkgLists [pA] [pA1] =
      { modified := {"A2".data}, added := ∅, removed := ∅,
        addedData := ∅, links := ∅ } := by
  refine ⟨?_, by decide, by decide, by decide⟩
  intro oldPkgs newPkgs hio hin
  have hfresh :
      ((addedSer oldPkgs newPkgs).image (entryFor newPkgs)).image package_name =
        freshNames oldPkgs newPkgs := by
    rw [addedSer, image_entryFor_eq newPkgs oldPkgs hin, image_toFinset_map]
    rfl
  have hgone :
      ((deletedSer oldPkgs newPkgs).image (entryFor oldPkgs)).image package_name =
        goneNames oldPkgs newPkgs := by
    rw [deletedSer, image_entryFor_eq oldPkgs newPkgs hio, image_toFinset_map]
    rfl
  have hdata :
      ((addedSer oldPkgs newPkgs).image (entryFor newPkgs)).image
          (fun p => (package_name p, p)) =
        freshData oldPkgs newPkgs := by
    rw [addedSer, image_entryFor_eq newPkgs oldPkgs hin, image_toFinset_map]
    rfl
  have hlinks :
      (((addedSer oldPkgs newPkgs).image (entryFor newPkgs)).filter
            (fun p => p.details.isSome = true)).image
          (fun p => (package_name p, p.details.getD [])) =
        freshLinks oldPkgs newPkgs := by
    rw [addedSer, image_entryFor_eq newPkgs oldPkgs hin]
    have hflt :
        (newPkgs.filter (fun p => decide (p.ser ∉ serList oldPkgs))).toFinset.filter
            (fun p => p.details.isSome = true) =
          ((freshEntries oldPkgs newPkgs).filter
            (fun p => p.details.isSome)).toFinset := by
      ext q
      simp [freshEntries, List.mem_filter]
      tauto
    rw [hflt, image_toFinset_map]
    rfl
  refine ⟨fun hda => ?_, fun hd0 ha0 => ?_, fun hne hd0 => ?_⟩
  · simp only [diffPkgLists]
    rw [if_pos hda, hfresh]
  · have hcond : ¬ ((deletedSer oldPkgs newPkgs).card =
        (addedSer oldPkgs newPkgs).card) := by
      rw [hd0]
      exact fun hc => ha0 hc.symm
    simp only [diffPkgLists]
    rw [if_neg hcond, if_pos hd0, hfresh, hdata, hlinks]
  · simp only [diffPkgLists]
    rw [if_neg hne, if_neg hd0, hgone]

/-- Witness for C3 at the rename example `[A]` to `[A']`. -/
theorem claim_C3_diff_w :
    diffPkgLists [pA] [pA1] =
      { modified := freshNames [pA] [pA1], added := ∅, removed := ∅,
        addedData := ∅, links := ∅ } :=
  (claim_C3_diff.1 [pA] [pA1] (by decide) (by decide)).1 (by decide)

/-- Claim C4: the verdict is a function of the collected findings only —
`build_result` yields `"errors"` whenever the error list is nonempty
(regardless of warnings), `"warnings"` when only warnings exist, and
`"success"` otherwise; the review status of `test_pull_request` maps the
error/warning flags to `ERROR`/`WARNING`/`SUCCESS` the same way. -/
theorem claim_C4_verdict (e w : List Str) (eb wb : Bool) :
    (e ≠ [] → (build_result e w).result = "errors".data) ∧
    (e = [] → w ≠ [] → (build_result e w).result = "warnings".data) ∧
    (e = [] → w = [] → (build_result e w).result = "success".data) ∧
    (eb = true → (reviewEventStatus eb wb).2 = "ERROR".data) ∧
    (eb = false → wb = true → (reviewEventStatus eb wb).2 = "WARNING".data) ∧
    (eb = false → wb = false → (reviewEventStatus eb wb).2 = "SUCCESS".data) := by
  cases e <;> cases w <;> cases eb <;> cases wb <;>
    simp [build_result, reviewEventStatus]

/-- Witness for C4 at concrete findings: one error yields verdict
`"errors"`; warnings only yield review status `WARNING`. -/
theorem claim_C4_verdict_w :
    (build_result ["x".data] []).result = "errors".data ∧
    (reviewEventStatus false true).2 = "WARNING".data :=
  ⟨(claim_C4_verdict ["x".data] [] true false).1 (by simp),
   (claim_C4_verdict [] [] false true).2.2.2.2.1 rfl rfl⟩

/-- Claim C5 (counterexample): the claim also asserts that the event
value derived from the verdict is never the value sent — but when the
verdict is `ERROR` the derived event is `REQUEST_CHANGES`, exactly the
value line 525 sends, so "never" is false. -/
theorem claim_C5_cex :
    (reviewEventStatus true false).2 = "ERROR".data ∧
    (reviewEventStatus true false).1 = (postReviewPayload []).event := by
  exact ⟨by decide, by decide⟩

/-- Claim C5 (amended): the posted review always carries the
`REQUEST_CHANGES` event, whatever the verdict; the derived event value
is ignored by the posting code — it differs from the posted event
whenever the verdict is `WARNING` or `SUCCESS` (and coincides with it
only for `ERROR`). -/
theorem claim_C5_event (e w : Bool) (b : Str) :
    (postReviewPayload b).event = "REQUEST_CHANGES".data ∧
    ((reviewEventStatus e w).2 = "WARNING".data ∨
        (reviewEventStatus e w).2 = "SUCCESS".data →
      (reviewEventStatus e w).1 ≠ (postReviewPayload b).event) := by
  have hev : (postReviewPayload b).event = "REQUEST_CHANGES".data := rfl
  refine ⟨hev, ?_⟩
  rw [hev]
  cases e <;> cases w <;> decide

/-- Witness for C5: on a warnings-only run the derived event (`COMMENT`)
differs from the posted event. -/
theorem claim_C5_event_w :
    (reviewEventStatus false true).1 ≠ (postReviewPayload []).event :=
  (claim_C5_event false true []).2 (Or.inl (by decide))

/-- Claim C6 (counterexample): a failure message that mentions the
placeholder URL outside the exact phrase
`' in the repository https://example.com'` is returned by
`fetch_package_metadata` unchanged and still contains the placeholder
URL, contradicting "the returned message never contains the placeholder
URL". -/
theorem claim_C6_cex :
    fetch_package_metadata
        { packages := [], failedSources := [(placeholderUrl, leakMsg)],
          brokenPackages := [] } =
      some (false, Sum.inr leakMsg) ∧
    hasSub placeholderUrl leakMsg = true := by
  refine ⟨?_, by decide⟩
  show some (false, Sum.inr (clean_message leakMsg)) = some (false, Sum.inr leakMsg)
  rw [clean_message_id leakMsg (by decide)]

/-- Claim C6 (amended): on a provider load failure the returned message
is the failure message with the left-to-right non-overlapping
occurrences of the exact phrase `' in the repository
https://example.com'` removed — a message in the provider's standard
shape has the placeholder stripped, but a message without that exact
phrase is returned verbatim, so placeholder URLs outside the phrase
survive. -/
theorem claim_C6_clean (src e : Str) :
    fetch_package_metadata
        { packages := [], failedSources := [(src, e)], brokenPackages := [] } =
      some (false, Sum.inr (clean_message e)) ∧
    (hasSub placeholderPhrase e = false → clean_message e = e) ∧
    clean_message ("No valid semver tags found in the repository https://example.com.".data) =
      "No valid semver tags found.".data := by
  refine ⟨rfl, fun h => clean_message_id e h, by decide⟩

/-- Witness for C6: a plain failure message is returned unchanged. -/
theorem claim_C6_clean_w :
    clean_message "boom".data = "boom".data :=
  (claim_C6_clean "u".data "boom".data).2.1 (by decide)

/-- Claim C7 (counterexample): a spec with no releases (declared and
resolved) whose name contains `"sublime"` and whose readme is missing
yields two errors and one warning, not "exactly one error finding ...
zero warnings" as the claim states for every such spec. -/
theorem claim_C7_cex :
    runTestsPre specNoReleases infoSublimeNoReleases =
      .early
        { result := "errors".data
          errors := ["Package name contains the word \"sublime\"".data,
            "No releases specified".data]
          warnings := ["Creating a readme for your package will help users understand what it does and how to use it".data] } := by
  decide

/-- Claim C7 (amended): for every spec whose resolved record has a valid
name (a string without `/` or `\`) not containing `"sublime"`
case-insensitively, a present readme, no resolved releases, and no
releases declared in the original spec, `run_tests` returns exactly one
error finding `'No releases specified'`, zero warnings, verdict
`"errors"`, before the download and extraction steps (`PreOut.early`). -/
theorem claim_C7_no_releases (spec : SpecM) (info : PkgInfoM) (n rd : Str)
    (hn : info.name = some n)
    (h1 : n.contains '/' = false) (h2 : n.contains '\\' = false)
    (h3 : hasSub "sublime".data (n.map Char.toLower) = false)
    (h4 : info.releases = []) (h5 : spec.releases = [])
    (h6 : info.readme = some rd) :
    runTestsPre spec info =
      .early
        { result := "errors".data
          errors := ["No releases specified".data]
          warnings := [] } := by
  have m1 : '/' ∉ n := by simpa using h1
  have m2 : '\\' ∉ n := by simpa using h2
  unfold runTestsPre
  rw [hn]
  simp [m1, m2, h3, h4, h5, h6, build_result]

/-- Witness for C7 at a concrete plain spec. -/
theorem claim_C7_no_releases_w :
    runTestsPre specNoReleases infoPlainNoReleases =
      .early
        { result := "errors".data
          errors := ["No releases specified".data]
          warnings := [] } :=
  claim_C7_no_releases specNoReleases infoPlainNoReleases "MyPkg".data
    "readme".data rfl (by decide) (by decide) (by decide) rfl rfl rfl

/-- Claim C8: when the provider yields no package and both
`failed_sources` and `broken_packages` are empty,
`fetch_package_metadata` falls off its end and returns `None`, so the
tuple unpacking at the top of `run_tests` raises instead of producing a
result dict. -/
theorem claim_C8_fallthrough (st : ProviderState)
    (h1 : st.packages = []) (h2 : st.failedSources = [])
    (h3 : st.brokenPackages = []) :
    fetch_package_metadata st = none ∧
    runTestsUnpack (fetch_package_metadata st) =
      .error "TypeError: cannot unpack non-iterable NoneType object".data := by
  obtain ⟨p, f, b⟩ := st
  simp only at h1 h2 h3
  subst h1; subst h2; subst h3
  exact ⟨rfl, rfl⟩

/-- Witness for C8 at the empty provider state. -/
theorem claim_C8_fallthrough_w :
    fetch_package_metadata
        { packages := [], failedSources := [], brokenPackages := [] } = none :=
  (claim_C8_fallthrough
    { packages := [], failedSources := [], brokenPackages := [] } rfl rfl rfl).1

/-- Claim C9 (counterexample): a resolved record whose name contains a
slash and whose primary release URL is not a string returns the
`'Invalid package name'` result, not the single
`'Primary release URL does not begin with https://'` finding the claim
asserts for every record with a bad primary URL. -/
theorem claim_C9_cex :
    runTestsPre specNoReleases infoSlashNameBadUrl =
      .early (build_result ["Invalid package name".data] []) ∧
    runTestsPre specNoReleases infoSlashNameBadUrl ≠
      .early
        { result := "errors".data
          errors := ["Primary release URL does not begin with https://".data]
          warnings := [] } := by
  exact ⟨by decide, by decide⟩

/-- Claim C9 (amended): for every spec whose resolved record has a valid
name (a string without `/` or `\`) and at least one release whose
primary URL is not a string starting with `https://`, `run_tests`
returns exactly the single error finding
`'Primary release URL does not begin with https://'` with an empty
warning list — every error and warning accumulated by the earlier
structural rules is discarded from the returned result. -/
theorem claim_C9_url_discards (spec : SpecM) (info : PkgInfoM) (n : Str)
    (r0 : RelInfo) (rs : List RelInfo)
    (hn : info.name = some n)
    (h1 : n.contains '/' = false) (h2 : n.contains '\\' = false)
    (hr : info.releases = r0 :: rs)
    (hu : r0.url = UrlVal.notStr ∨
      ∃ u, r0.url = UrlVal.strV u ∧ ("https://".data).isPrefixOf u = false) :
    runTestsPre spec info =
      .early
        { result := "errors".data
          errors := ["Primary release URL does not begin with https://".data]
          warnings := [] } := by
  have m1 : '/' ∉ n := by simpa using h1
  have m2 : '\\' ∉ n := by simpa using h2
  unfold runTestsPre
  rw [hn]
  rcases hu with hu | ⟨u, hu, hbad⟩
  · simp [m1, m2, hr, hu, build_result]
  · simp [m1, m2, hr, hu, hbad, build_result]

/-- Claim C10: the changed-file filter accepts a per-shard repository
path exactly when it is `repository/` followed by a single word
character, or the literal text `0-9`, and then `.json`; a shard file
with a multi-character base name such as `repository/ab.json` fails the
pattern and is silently dropped from the diff, while `repository/a.json`
is kept. -/
theorem claim_C10_shard_filter :
    (∀ s : Str, shardNameMatch s = true ↔
      ((∃ c : Char, isWordChar c = true ∧
          s = "repository/".data ++ [c] ++ ".json".data) ∨
        s = "repository/0-9.json".data)) ∧
    filterChangedFiles [("M".data, "repository/ab.json".data)] = .ok [] ∧
    filterChangedFiles [("M".data, "repository/a.json".data)] =
      .ok ["repository/a.json".data] ∧
    filterChangedFiles [("M".data, "repository/0-9.json".data)] =
      .ok ["repository/0-9.json".data] := by
  refine ⟨?_, by decide, by decide, by decide⟩
  intro s
  constructor
  · intro h
    simp only [shardNameMatch, Bool.and_eq_true] at h
    obtain ⟨h1, h23⟩ := h
    obtain ⟨t, ht⟩ := (List.isPrefixOf_iff_prefix).1 h1
    subst ht
    rw [List.drop_left] at h23
    obtain ⟨h2, h3⟩ := h23
    obtain ⟨m, hm⟩ := (List.isSuffixOf_iff_suffix).1 h2
    subst hm
    rw [show (m ++ ".json".data).length - (".json".data).length = m.length from by
        simp, List.take_left, Bool.or_eq_true] at h3
    rcases h3 with hmc | hbeq
    · cases m with
      | nil => simp at hmc
      | cons c m2 =>
        cases m2 with
        | nil => exact Or.inl ⟨c, hmc, (List.append_assoc _ _ _).symm⟩
        | cons d t => simp at hmc
    · have hm9 : m = "0-9".data := eq_of_beq hbeq
      subst hm9
      exact Or.inr (by decide)
  · rintro (⟨c, hc, rfl⟩ | rfl)
    · have hassoc : "repository/".data ++ [c] ++ ".json".data =
          "repository/".data ++ ([c] ++ ".json".data) := List.append_assoc _ _ _
      simp only [shardNameMatch]
      rw [hassoc, List.drop_left]
      have hp : ("repository/".data).isPrefixOf
          ("repository/".data ++ ([c] ++ ".json".data)) = true :=
        (List.isPrefixOf_iff_prefix).2 (List.prefix_append _ _)
      have hs : (".json".data).isSuffixOf ([c] ++ ".json".data) = true :=
        (List.isSuffixOf_iff_suffix).2 (List.suffix_append _ _)
      rw [hp, hs,
        show ([c] ++ ".json".data).length - (".json".data).length = [c].length from by
          simp, List.take_left]
      simp [hc]
    · decide

/-- Witness for C9: with a `"sublime"`-named record, a branch-based
all-platform release source and no readme (so errors and warnings were
accumulated), an insecure primary URL still yields only the URL
finding. -/
theorem claim_C9_url_discards_w :
    runTestsPre specBranchStar infoSublimeBadUrl =
      .early
        { result := "errors".data
          errors := ["Primary release URL does not begin with https://".data]
          warnings := [] } :=
  claim_C9_url_discards specBranchStar infoSublimeBadUrl "MySublimeTool".data
    { url := UrlVal.strV "http://x".data } [] rfl (by decide) (by decide) rfl
    (Or.inr ⟨"http://x".data, rfl, by decide⟩)

end RepoTests
